import Mathlib

/-!
# Verification of the Deepseek-Local-RAG-Agent core

Shallow embedding of the retrieval-and-fallback decision pipeline and the
streaming response splitter of `src/app.py`, the retrieval filter of
`src/drive_mcp/pinecone_indexer.py`, and the batching helper of `src/rag.py`,
together with proofs of the specified properties.

Strings are modelled as `List Char`; Python floats (similarity scores and
thresholds) as `ℚ`; Python exceptions as `Except` values; Python `None` as
`Option.none`.
-/

namespace RAGAgent

/-! ## Streaming response splitter (`src/app.py`, think-tag extraction)

The source extracts a "thinking" section with
`re.search(r'<think>(.*?)</think>', full_response, re.DOTALL)` and removes all
such spans with `re.sub(think_pattern, '', full_response, flags=re.DOTALL)`,
then strips surrounding whitespace from both pieces.  We embed the two regex
operations directly: the pattern matches at a position iff the literal
`<think>` starts there and the literal `</think>` occurs at or after its end;
the lazy group is everything up to the first such `</think>`.  The scanning
functions that skip past a whole match recurse on a non-structural suffix, so
they take a fuel argument; fuel equal to the text length is always enough
because every step consumes at least one character. -/

/-- The opening delimiter `<think>`. -/
def thinkOpen : List Char := "<think>".data

/-- The closing delimiter `</think>`. -/
def thinkClose : List Char := "</think>".data

/-- First index at which `pat` occurs as a contiguous sublist of `s`
(leftmost match of a literal pattern). -/
def findSub (pat : List Char) : List Char → Option Nat
  | [] => if pat <+: ([] : List Char) then some 0 else none
  | c :: rest =>
    if pat <+: (c :: rest) then some 0
    else (findSub pat rest).map (· + 1)

/-- `re.search(r'<think>(.*?)</think>', s, re.DOTALL).group(1)`: the content of
the leftmost complete `<think>…</think>` span (lazy inner group), or `none`
when no complete span exists.  Scanning tries each start position from the
left; at a position opening with `<think>`, the lazy group ends at the first
following `</think>`. -/
def firstThinkSpan : List Char → Option (List Char)
  | [] => none
  | c :: rest =>
    if thinkOpen <+: (c :: rest) then
      match findSub thinkClose ((c :: rest).drop 7) with
      | some r => some (((c :: rest).drop 7).take r)
      | none => firstThinkSpan rest
    else firstThinkSpan rest

/-- Fuelled scanner for
`re.sub(r'<think>(.*?)</think>', '', s, flags=re.DOTALL)`: remove every
(non-overlapping, leftmost-first) complete `<think>…</think>` span. -/
def removeThinkSpansF : Nat → List Char → List Char
  | _, [] => []
  | 0, s => s
  | fuel + 1, c :: rest =>
    if thinkOpen <+: (c :: rest) then
      match findSub thinkClose ((c :: rest).drop 7) with
      | some r => removeThinkSpansF fuel (((c :: rest).drop 7).drop (r + 8))
      | none => c :: removeThinkSpansF fuel rest
    else c :: removeThinkSpansF fuel rest

/-- `re.sub(r'<think>(.*?)</think>', '', s, flags=re.DOTALL)`. -/
def removeThinkSpans (s : List Char) : List Char :=
  removeThinkSpansF s.length s

/-- Python `str.strip()` whitespace predicate (ASCII whitespace). -/
def isPySpace (c : Char) : Bool :=
  c == ' ' || c == '\t' || c == '\n' || c == '\r' ||
  c.toNat == 11 || c.toNat == 12

/-- Python `str.strip()`: drop leading and trailing whitespace. -/
def pyStrip (s : List Char) : List Char :=
  ((s.dropWhile isPySpace).reverse.dropWhile isPySpace).reverse

/-- The final think-tag extraction of `src/app.py` (lines 1114–1121): if a
complete `<think>…</think>` span exists, `thinking_process` is the first
span's content stripped and `final_response` is the text with all spans
removed and stripped; otherwise `thinking_process` is `None` and
`final_response` is the accumulated text unchanged. -/
def splitThink (s : List Char) : Option (List Char) × List Char :=
  match firstThinkSpan s with
  | some sp => (some (pyStrip sp), pyStrip (removeThinkSpans s))
  | none => (none, s)

/-- Modelled from the spec (fuelled): the contents of **every** complete
`<think>…</think>` span of the text, in order; the spec's statement
"`reasoning_span` holds the concatenation of all such spans seen so far"
refers to the concatenation of this list. -/
def allThinkSpansF : Nat → List Char → List (List Char)
  | _, [] => []
  | 0, _ => []
  | fuel + 1, c :: rest =>
    if thinkOpen <+: (c :: rest) then
      match findSub thinkClose ((c :: rest).drop 7) with
      | some r =>
        ((c :: rest).drop 7).take r ::
          allThinkSpansF fuel (((c :: rest).drop 7).drop (r + 8))
      | none => allThinkSpansF fuel rest
    else allThinkSpansF fuel rest

/-- Modelled from the spec: the list of the contents of every complete
`<think>…</think>` span, in order. -/
def allThinkSpans (s : List Char) : List (List Char) :=
  allThinkSpansF s.length s

/-- Occurrence of a literal pattern at position `p` of `s`. -/
def OccursAt (pat s : List Char) (p : Nat) : Prop :=
  pat <+: s.drop p

instance (pat s : List Char) (p : Nat) : Decidable (OccursAt pat s p) :=
  inferInstanceAs (Decidable (pat <+: s.drop p))

/-- The text contains at least one complete delimiter pair: an occurrence of
`<think>` at some position `p` and an occurrence of `</think>` at some
position `q ≥ p + 7` (at or after the opener's end). -/
def HasThinkPair (s : List Char) : Prop :=
  ∃ p ∈ List.range s.length, ∃ q ∈ List.range s.length,
    p + 7 ≤ q ∧ OccursAt thinkOpen s p ∧ OccursAt thinkClose s q

instance (s : List Char) : Decidable (HasThinkPair s) :=
  inferInstanceAs (Decidable (∃ p ∈ List.range s.length, _))

/-! ## Pinecone retrieval filter (`src/drive_mcp/pinecone_indexer.py`)

`PineconeIndexer.retrieve` queries the index for the `top_k` nearest matches
and keeps exactly those with `match.score >= score_threshold`, turning each
kept match into a document (`page_content` is `metadata.get('text', '')`,
metadata keeps all keys except `'text'`, score and id are carried over).  We
embed the filter step over the list of matches returned by the index query. -/

/-- A match returned by the Pinecone index query: id, similarity score, and
a metadata dictionary (modelled as an association list). -/
structure PMatch where
  id : List Char
  score : ℚ
  metadata : List (List Char × List Char)
deriving DecidableEq

/-- The document shape built by `PineconeIndexer.retrieve` for one match. -/
structure RDoc where
  page_content : List Char
  metadata : List (List Char × List Char)
  score : ℚ
  id : List Char
deriving DecidableEq

/-- How `retrieve` turns one kept match into a document:
`text = match.metadata.get('text', '')`, metadata without the `'text'` key,
score and id carried over. -/
def matchToDoc (m : PMatch) : RDoc :=
  { page_content := (m.metadata.lookup "text".data).getD []
    metadata := m.metadata.filter (fun kv => !(kv.1 == "text".data))
    score := m.score
    id := m.id }

/-- The filter step of `PineconeIndexer.retrieve` (lines 331–343): for each
match of the index query, in order, keep it iff `match.score >=
score_threshold` and convert it to a document. -/
def retrieve (queryMatches : List PMatch) (score_threshold : ℚ) : List RDoc :=
  queryMatches.filterMap
    (fun m => if score_threshold ≤ m.score then some (matchToDoc m) else none)

/-! ## Batching helper (`src/rag.py`, `chunker`)

`chunker(seq, batch_size)` is
`[seq[pos:pos + batch_size] for pos in range(0, len(seq), batch_size)]`.
For `batch_size > 0`, `range(0, n, b)` has `⌈n / b⌉ = (n + b - 1) / b`
elements `0, b, 2b, …`, and the slice `seq[pos:pos+b]` is
`(seq.drop pos).take b`. -/

/-- `chunker` of `src/rag.py` (lines 43–44). -/
def chunker {α : Type} (seq : List α) (batch_size : Nat) : List (List α) :=
  (List.range' 0 ((seq.length + batch_size - 1) / batch_size) batch_size).map
    (fun pos => (seq.drop pos).take batch_size)

/-! ## Retrieval selector and chat turn (`src/app.py`, chat handler)

The chat handler (lines 936–1140) appends the user turn to history, then:

* Step 2: unless `force_web_search` is set, query the Pinecone indexer with
  `top_k=5` and the session similarity threshold; if that raises, fall back to
  the traditional vector store (when available) with the same `k=5` and
  threshold.  A non-empty result list is joined with `"\n\n"` into the
  context.
* Step 3: invoke the web-search agent iff
  `(force_web_search or not context) and use_web_search and exa_api_key`;
  a non-empty web result replaces the context.
* Step 4: call the RAG agent on the built prompt; on success split the
  response with the think-tag splitter and append the assistant turn to
  history; on an exception show an error and append nothing.

External collaborators (index query, vector store, web agent, RAG agent) are
modelled as functions supplied in a `TurnEnv`; a call that may raise returns
an `Except` value.  Every `st.info`/`st.error` panel relevant to the claims
is recorded as a `Notice`. -/

/-- A LangChain-style document as used by the chat handler (only
`page_content` is consumed by the pipeline logic). -/
structure Doc where
  page_content : List Char
deriving DecidableEq

/-- The session flags read by the chat handler. `exa_api_key_present` is the
truthiness of `st.session_state.exa_api_key`. -/
structure ChatConfig where
  force_web_search : Bool
  use_web_search : Bool
  exa_api_key_present : Bool
  similarity_threshold : ℚ

/-- The external collaborators of one chat turn.

* `primaryQuery k t`: `pinecone_indexer.retrieve_as_langchain_docs(query,
  top_k=k, score_threshold=t)`; may raise.
* `vector_store`: `st.session_state.vector_store`, when set: `(k, t) ↦`
  result of `retriever.invoke(query)` for the retriever built with
  `search_kwargs={"k": k, "score_threshold": t}`.
* `webSearch`: the web-search agent run, collected into one string; may raise.
* `ragRun p`: `rag_agent.run(p)` collected into the full response string; may
  raise (also covers an exception while consuming the stream). -/
structure TurnEnv where
  primaryQuery : Nat → ℚ → Except (List Char) (List Doc)
  vector_store : Option (Nat → ℚ → List Doc)
  webSearch : Except (List Char) (List Char)
  ragRun : List Char → Except (List Char) (List Char)

/-- The user-visible info/error panels the chat handler can emit, in order. -/
inductive Notice
  | foundDocs (n : Nat)
  | fallbackWebNotice
  | retrievalError (msg : List Char)
  | fallingBackVectorStore
  | usingWebForced
  | usingWebFallback
  | webSearchError (msg : List Char)
  | noInfoFound
  | generationError (msg : List Char)
deriving DecidableEq

/-- Join document texts as the handler does:
`"\n\n".join([d.page_content for d in docs])`. -/
def joinDocs (docs : List Doc) : List Char :=
  List.intercalate "\n\n".data (docs.map Doc.page_content)

/-- Step 2 of the chat handler (lines 956–1003): document search with
primary-index error fallback.  Returns `(context, docs, notices)`. -/
def runStep2 (cfg : ChatConfig) (env : TurnEnv) :
    List Char × List Doc × List Notice :=
  if cfg.force_web_search then ([], [], [])
  else
    match env.primaryQuery 5 cfg.similarity_threshold with
    | .ok docs =>
      if docs.isEmpty then
        ([], docs, if cfg.use_web_search then [.fallbackWebNotice] else [])
      else
        (joinDocs docs, docs, [.foundDocs docs.length])
    | .error e =>
      match env.vector_store with
      | some query =>
        let docs := query 5 cfg.similarity_threshold
        if docs.isEmpty then
          ([], docs,
            [.retrievalError e, .fallingBackVectorStore] ++
              (if cfg.use_web_search then [.fallbackWebNotice] else []))
        else
          (joinDocs docs, docs,
            [.retrievalError e, .fallingBackVectorStore,
              .foundDocs docs.length])
      | none => ([], [], [.retrievalError e])

/-- Outcome of the retrieval selector (Steps 2–3): the assembled context, the
document results, whether the web-search agent was invoked, and the notices
shown. -/
structure SelectorOut where
  context : List Char
  docs : List Doc
  webInvoked : Bool
  notices : List Notice
deriving DecidableEq

/-- Steps 2–3 of the chat handler: document search then the web-search
branch guarded by
`(force_web_search or not context) and use_web_search and exa_api_key`
(line 1006); a non-empty web result replaces the context (line 1028). -/
def runSelector (cfg : ChatConfig) (env : TurnEnv) : SelectorOut :=
  let s2 := runStep2 cfg env
  let context := s2.1
  let docs := s2.2.1
  let notices := s2.2.2
  let webInvoked :=
    (cfg.force_web_search || context.isEmpty) && cfg.use_web_search &&
      cfg.exa_api_key_present
  if webInvoked then
    match env.webSearch with
    | .ok web_results =>
      if web_results.isEmpty then
        ⟨context, docs, true, notices⟩
      else
        ⟨"Web Search Results:\n".data ++ web_results, docs, true,
          notices ++
            [if cfg.force_web_search then .usingWebForced
             else .usingWebFallback]⟩
    | .error e => ⟨context, docs, true, notices ++ [.webSearchError e]⟩
  else ⟨context, docs, false, notices⟩

/-- Chat roles. -/
inductive Role
  | user
  | assistant
deriving DecidableEq

/-- One entry of `st.session_state.history`. -/
structure ConversationTurn where
  role : Role
  content : List Char
deriving DecidableEq

/-- Outcome of one whole chat turn. -/
structure TurnResult where
  history : List ConversationTurn
  selector : SelectorOut
  thinking : Option (List Char)
  genNotices : List Notice
deriving DecidableEq

/-- The prompt built for the RAG agent (lines 1042–1050): the
`Context:`/`Original Question:` template when a context exists, else the
plain `Original Question:` line. -/
def buildFullPrompt (context prompt : List Char) : List Char :=
  if context.isEmpty then
    "Original Question: ".data ++ prompt ++ "\n".data
  else
    "Context: ".data ++ context ++ "\n\nOriginal Question: ".data ++ prompt ++
      "\nPlease provide a comprehensive answer based on the available information.".data

/-- One whole chat turn (lines 936–1140): append the user turn, run the
retrieval selector, call the RAG agent on the built prompt; on success split
the response and append the assistant turn (lines 1123–1127); on an
exception show `generationError` and leave history as it was after the user
turn. -/
def runTurn (cfg : ChatConfig) (env : TurnEnv)
    (history0 : List ConversationTurn) (prompt : List Char) : TurnResult :=
  let history1 := history0 ++ [⟨.user, prompt⟩]
  let sel := runSelector cfg env
  let noCtx : List Notice := if sel.context.isEmpty then [.noInfoFound] else []
  match env.ragRun (buildFullPrompt sel.context prompt) with
  | .error e =>
    ⟨history1, sel, none, noCtx ++ [.generationError e]⟩
  | .ok full_response =>
    let s := splitThink full_response
    ⟨history1 ++ [⟨.assistant, s.2⟩], sel, s.1, noCtx⟩

/-! ## `check_document_relevance` (`src/app.py`, lines 303–311) -/

/-- `check_document_relevance(query, vector_store, threshold)`: returns
`(False, [])` when the vector store is absent; otherwise builds a retriever
with `k=5` and the score threshold, invokes it on the query, and returns
`(bool(docs), docs)`. -/
def check_document_relevance (query : List Char)
    (vector_store : Option (Nat → ℚ → List Char → List Doc)) (threshold : ℚ) :
    Bool × List Doc :=
  match vector_store with
  | none => (false, [])
  | some retrieverInvoke =>
    let docs := retrieverInvoke 5 threshold query
    (!docs.isEmpty, docs)

/-! ## Properties of the streaming response splitter -/

/-- If `findSub` reports position `r`, the pattern indeed occurs there. -/
theorem findSub_sound {pat : List Char} :
    ∀ {s : List Char} {r : Nat}, findSub pat s = some r → pat <+: s.drop r := by
  intro s
  induction s with
  | nil =>
    intro r h
    by_cases hp : pat <+: ([] : List Char)
    · simp only [findSub, if_pos hp] at h
      cases h
      simpa using hp
    · simp only [findSub, if_neg hp] at h
      cases h
  | cons c rest ih =>
    intro r h
    by_cases hp : pat <+: (c :: rest)
    · simp only [findSub, if_pos hp] at h
      cases h
      simpa using hp
    · simp only [findSub, if_neg hp] at h
      cases hf : findSub pat rest with
      | none => rw [hf] at h; cases h
      | some r' =>
        rw [hf] at h
        simp only [Option.map_some'] at h
        cases h
        simpa using ih hf

/-- A nonempty pattern can only occur strictly inside the text. -/
theorem occursAt_lt_length {pat s : List Char} {p : Nat} (hpat : pat ≠ [])
    (h : OccursAt pat s p) : p < s.length := by
  have h1 := h.length_le
  rw [List.length_drop] at h1
  have h2 : 0 < pat.length := List.length_pos.mpr hpat
  omega

/-- A delimiter pair of the tail is a delimiter pair of the whole text. -/
theorem hasThinkPair_cons {c : Char} {rest : List Char}
    (h : HasThinkPair rest) : HasThinkPair (c :: rest) := by
  obtain ⟨p, hp, q, hq, hle, ho, hc⟩ := h
  rw [List.mem_range] at hp hq
  refine ⟨p + 1, ?_, q + 1, ?_, by omega, ?_, ?_⟩
  · rw [List.mem_range, List.length_cons]; omega
  · rw [List.mem_range, List.length_cons]; omega
  · simpa [OccursAt] using ho
  · simpa [OccursAt] using hc

/-- If the leftmost-span extraction finds a complete span, the text contains
a complete delimiter pair. -/
theorem hasThinkPair_of_firstThinkSpan :
    ∀ {s sp : List Char}, firstThinkSpan s = some sp → HasThinkPair s := by
  intro s
  induction s with
  | nil => intro sp h; simp [firstThinkSpan] at h
  | cons c rest ih =>
    intro sp h
    by_cases hp : thinkOpen <+: (c :: rest)
    · simp only [firstThinkSpan, if_pos hp] at h
      cases hf : findSub thinkClose ((c :: rest).drop 7) with
      | some r =>
        have hocc : thinkClose <+: (c :: rest).drop (7 + r) := by
          have := findSub_sound hf
          rwa [List.drop_drop] at this
        refine ⟨0, ?_, 7 + r, ?_, by omega, ?_, hocc⟩
        · rw [List.mem_range, List.length_cons]; omega
        · rw [List.mem_range]
          exact occursAt_lt_length (by decide) hocc
        · simpa [OccursAt] using hp
      | none =>
        rw [hf] at h
        exact hasThinkPair_cons (ih h)
    · simp only [firstThinkSpan, if_neg hp] at h
      exact hasThinkPair_cons (ih h)

/-- With enough fuel, the head of the collected span list is exactly the
leftmost complete span. -/
theorem allThinkSpansF_head :
    ∀ (fuel : Nat) (s : List Char), s.length ≤ fuel →
      (allThinkSpansF fuel s).head? = firstThinkSpan s := by
  intro fuel
  induction fuel with
  | zero =>
    intro s hs
    cases s with
    | nil => simp [allThinkSpansF, firstThinkSpan]
    | cons c rest => simp at hs
  | succ f ih =>
    intro s hs
    cases s with
    | nil => simp [allThinkSpansF, firstThinkSpan]
    | cons c rest =>
      by_cases hp : thinkOpen <+: (c :: rest)
      · simp only [allThinkSpansF, firstThinkSpan, if_pos hp]
        cases hf : findSub thinkClose ((c :: rest).drop 7) with
        | some r => simp
        | none =>
          exact ih rest (by simpa using Nat.le_of_succ_le_succ (by simpa using hs))
      · simp only [allThinkSpansF, firstThinkSpan, if_neg hp]
        exact ih rest (by simpa using Nat.le_of_succ_le_succ (by simpa using hs))

/-- The head of the collected span list is the leftmost complete span. -/
theorem allThinkSpans_head (s : List Char) :
    (allThinkSpans s).head? = firstThinkSpan s :=
  allThinkSpansF_head s.length s le_rfl

/-- C6: for any text containing zero complete `<think>…</think>` delimiter
pairs, the splitter returns the text unchanged as `visible_text` and no
`reasoning_span`. -/
theorem claim_C6_roundtrip (s : List Char) (h : ¬ HasThinkPair s) :
    splitThink s = (none, s) := by
  cases hf : firstThinkSpan s with
  | none => simp [splitThink, hf]
  | some sp => exact absurd (hasThinkPair_of_firstThinkSpan hf) h

/-- C6 witness: a concrete delimiter-free text round-trips unchanged. -/
theorem claim_C6_witness :
    ¬ HasThinkPair "no delimiters here".data ∧
      splitThink "no delimiters here".data = (none, "no delimiters here".data) :=
  ⟨by decide, claim_C6_roundtrip "no delimiters here".data (by decide)⟩

/-- C5: on `"<think>step one</think>Answer: 42"` the splitter yields
`reasoning_span = "step one"` (trimmed span content) and
`visible_text = "Answer: 42"`. -/
theorem claim_C5_scenario :
    splitThink "<think>step one</think>Answer: 42".data =
      (some "step one".data, "Answer: 42".data) := by decide

/-- C4 is false as stated: on the unterminated input `"<think>partial"` the
no-match branch keeps `visible_text` equal to the whole accumulated text
(including the opening delimiter), not the empty string. -/
theorem claim_C4_counterexample :
    (splitThink "<think>partial".data).2 ≠ "".data := by decide

/-- C4 (amended): on `"<think>partial"` the splitter yields
`reasoning_span` absent and `visible_text` equal to the accumulated text
unchanged, `"<think>partial"`. -/
theorem claim_C4_amended :
    splitThink "<think>partial".data = (none, "<think>partial".data) := by
  decide

/-- C3 is false as stated: on
`"<think>a</think> x <think>b</think>"` the concatenation of all complete
spans is `"ab"` but the splitter reports only the first span `"a"`, and the
visible text is the whitespace-stripped `"x"` rather than the exact
span-removal residue `" x "`. -/
theorem claim_C3_counterexample :
    (allThinkSpans "<think>a</think> x <think>b</think>".data).flatten =
      "ab".data ∧
    removeThinkSpans "<think>a</think> x <think>b</think>".data = " x ".data ∧
    splitThink "<think>a</think> x <think>b</think>".data =
      (some "a".data, "x".data) ∧
    some "a".data ≠ some "ab".data ∧
    "x".data ≠ " x ".data := by decide

/-- C3 (amended): after every processed accumulation, `reasoning_span` is the
**first** complete span's content trimmed of surrounding whitespace (absent
when no complete span exists), and `visible_text` is the accumulated text
with every complete span removed and then trimmed — except that with no
complete span the accumulated text is kept unchanged. -/
theorem claim_C3_amended (s : List Char) :
    (splitThink s).1 = ((allThinkSpans s).head?).map pyStrip ∧
    (splitThink s).2 =
      if allThinkSpans s = [] then s else pyStrip (removeThinkSpans s) := by
  have hh := allThinkSpans_head s
  cases hf : firstThinkSpan s with
  | none =>
    rw [hf] at hh
    have hnil : allThinkSpans s = [] := List.head?_eq_none_iff.mp hh
    simp [splitThink, hf, hnil]
  | some sp =>
    rw [hf] at hh
    have hne : allThinkSpans s ≠ [] := by
      intro heq
      rw [heq] at hh
      simp at hh
    simp [splitThink, hf, hh, hne]

/-! ## Properties of the Pinecone retrieval filter -/

/-- Converting a match to a document preserves its score. -/
theorem matchToDoc_score (m : PMatch) : (matchToDoc m).score = m.score := rfl

/-- C2: for every threshold `t` and every match `m` of the index query, the
document built from `m` is in the retrieval output iff `m.score ≥ t`; the
boundary `score = t` is included since the comparison is `≥`. -/
theorem claim_C2_threshold (queryMatches : List PMatch) (t : ℚ) (m : PMatch)
    (hm : m ∈ queryMatches) :
    matchToDoc m ∈ retrieve queryMatches t ↔ t ≤ m.score := by
  constructor
  · intro hmem
    obtain ⟨m', hm', hsome⟩ := List.mem_filterMap.mp hmem
    by_cases h : t ≤ m'.score
    · rw [if_pos h] at hsome
      have hs : m'.score = m.score := by
        have := congrArg RDoc.score (Option.some_inj.mp hsome)
        simpa [matchToDoc_score] using this
      rwa [hs] at h
    · rw [if_neg h] at hsome
      cases hsome
  · intro h
    exact List.mem_filterMap.mpr ⟨m, hm, by rw [if_pos h]⟩

/-- C2 witness: a match whose score exactly equals the threshold is kept. -/
theorem claim_C2_witness :
    (⟨"id0".data, 7/10, [("text".data, "hello".data)]⟩ : PMatch) ∈
      [(⟨"id0".data, 7/10, [("text".data, "hello".data)]⟩ : PMatch)] ∧
    (matchToDoc ⟨"id0".data, 7/10, [("text".data, "hello".data)]⟩ ∈
        retrieve [⟨"id0".data, 7/10, [("text".data, "hello".data)]⟩] (7/10) ↔
      (7/10 : ℚ) ≤ (⟨"id0".data, 7/10, [("text".data, "hello".data)]⟩ : PMatch).score) :=
  ⟨List.mem_singleton.mpr rfl,
    claim_C2_threshold _ (7/10) _ (List.mem_singleton.mpr rfl)⟩

/-! ## Properties of `check_document_relevance` -/

/-- C10: with no vector store the function answers `(False, [])` directly;
in general its boolean component is `true` exactly when the returned
document list is non-empty. -/
theorem claim_C10_relevance (query : List Char)
    (vector_store : Option (Nat → ℚ → List Char → List Doc)) (threshold : ℚ) :
    check_document_relevance query none threshold = (false, []) ∧
    ((check_document_relevance query vector_store threshold).1 = true ↔
      (check_document_relevance query vector_store threshold).2 ≠ []) := by
  constructor
  · rfl
  · cases vector_store with
    | none => simp [check_document_relevance]
    | some retrieverInvoke =>
      simp [check_document_relevance, List.isEmpty_iff]

/-! ## Properties of the batching helper -/

/-- Unfolding: on a non-empty sequence, the first batch is the first
`b` elements and the rest is the chunking of the remainder. -/
theorem chunker_cons {α : Type} (seq : List α) (b : Nat) (hb : 0 < b)
    (hne : seq ≠ []) :
    chunker seq b = seq.take b :: chunker (seq.drop b) b := by
  have hlen : 0 < seq.length := List.length_pos.mpr hne
  have hcount : (seq.length + b - 1) / b = (seq.length - 1) / b + 1 := by
    have h1 : seq.length + b - 1 = (seq.length - 1) + b := by omega
    rw [h1, Nat.add_div_right _ hb]
  have hcount2 : ((seq.drop b).length + b - 1) / b = (seq.length - 1) / b := by
    rw [List.length_drop]
    rcases le_or_lt b seq.length with hle | hlt
    · congr 1
      omega
    · have e1 : seq.length - b = 0 := by omega
      rw [e1]
      rw [Nat.div_eq_of_lt (by omega), Nat.div_eq_of_lt (by omega)]
  unfold chunker
  rw [hcount, hcount2, List.range'_succ, List.map_cons, List.drop_zero,
    Nat.zero_add]
  congr 1
  have hshift := List.map_add_range' b 0 ((seq.length - 1) / b) b
  rw [Nat.add_zero] at hshift
  rw [← hshift, List.map_map]
  refine List.map_congr_left ?_
  intro pos _
  simp only [Function.comp_apply]
  rw [List.drop_drop]

/-- The chunking of the empty sequence is empty. -/
theorem chunker_nil {α : Type} (b : Nat) : chunker ([] : List α) b = [] := by
  unfold chunker
  have h : ((List.length ([] : List α)) + b - 1) / b = 0 := by
    rw [List.length_nil]
    cases b with
    | zero => rfl
    | succ b' => exact Nat.div_eq_of_lt (by omega)
  rw [h]
  rfl

/-- Concatenating the batches gives back the sequence (fuelled induction on
the length). -/
theorem chunker_flatten_aux {α : Type} (b : Nat) (hb : 0 < b) :
    ∀ (n : Nat) (seq : List α), seq.length ≤ n →
      (chunker seq b).flatten = seq := by
  intro n
  induction n with
  | zero =>
    intro seq hs
    have : seq = [] := List.length_eq_zero.mp (Nat.le_zero.mp hs)
    rw [this, chunker_nil]
    rfl
  | succ n ih =>
    intro seq hs
    rcases List.eq_nil_or_concat' seq with rfl | hne
    case inl => rw [chunker_nil]; rfl
    case inr =>
      have hne' : seq ≠ [] := by
        obtain ⟨l, x, rfl⟩ := hne
        simp
      rw [chunker_cons seq b hb hne', List.flatten_cons,
        ih (seq.drop b) (by rw [List.length_drop]; omega),
        List.take_append_drop]

/-- C9: for every sequence and every positive batch size, the batches
concatenate back to the sequence in order, no batch exceeds the batch size,
and every batch except possibly the last has exactly the batch size. -/
theorem claim_C9_batching {α : Type} (seq : List α) (b : Nat) (hb : 0 < b) :
    (chunker seq b).flatten = seq ∧
    (∀ batch ∈ chunker seq b, batch.length ≤ b) ∧
    (∀ (i : Nat) (batch : List α), i + 1 < (chunker seq b).length →
      (chunker seq b)[i]? = some batch → batch.length = b) := by
  refine ⟨chunker_flatten_aux b hb seq.length seq le_rfl, ?_, ?_⟩
  · intro batch hmem
    unfold chunker at hmem
    obtain ⟨pos, _, rfl⟩ := List.mem_map.mp hmem
    rw [List.length_take]
    exact min_le_left _ _
  · intro i batch hi hget
    have hcnt : (chunker seq b).length = (seq.length + b - 1) / b := by
      unfold chunker
      rw [List.length_map, List.length_range']
    rw [hcnt] at hi
    unfold chunker at hget
    rw [List.getElem?_map, List.getElem?_range' 0 b (by omega)] at hget
    have hbatch : batch = (seq.drop (b * i)).take b := by
      have := Option.some_inj.mp hget
      rw [← this, Nat.zero_add]
    have hdiv : i + 2 ≤ (seq.length + b - 1) / b := by omega
    have hmul : (i + 2) * b ≤ seq.length + b - 1 :=
      (Nat.le_div_iff_mul_le hb).mp hdiv
    have hexp : (i + 2) * b = i * b + 2 * b := by ring
    have hlb : b * i + b ≤ seq.length := by
      have hc : b * i = i * b := Nat.mul_comm b i
      omega
    rw [hbatch, List.length_take, List.length_drop]
    omega

/-- C9 witness: chunking `[1,2,3,4,5]` with batch size 2. -/
theorem claim_C9_witness :
    0 < 2 ∧
    ((chunker [1, 2, 3, 4, 5] 2).flatten = [1, 2, 3, 4, 5] ∧
      (∀ batch ∈ chunker [1, 2, 3, 4, 5] 2, batch.length ≤ 2) ∧
      (∀ (i : Nat) (batch : List Nat),
        i + 1 < (chunker [1, 2, 3, 4, 5] 2).length →
        (chunker [1, 2, 3, 4, 5] 2)[i]? = some batch → batch.length = 2)) :=
  ⟨by decide, claim_C9_batching [1, 2, 3, 4, 5] 2 (by decide)⟩

/-! ## Properties of the retrieval selector and the chat turn -/

/-- C1 is false as stated: with `force_web_search = false`, web search
enabled and an API key present, a primary query that returns one
(threshold-passing) result whose stored text is empty produces an empty
context string, and the Step-3 guard `(force_web_search or not context)`
then fires the web-search branch even though the primary index returned a
result. -/
theorem claim_C1_counterexample :
    (runStep2 ⟨false, true, true, 7/10⟩
        ⟨fun _ _ => Except.ok [⟨[]⟩], none, Except.ok "w".data,
          fun _ => Except.ok "a".data⟩).2.1 = [(⟨[]⟩ : Doc)] ∧
    (runSelector ⟨false, true, true, 7/10⟩
        ⟨fun _ _ => Except.ok [⟨[]⟩], none, Except.ok "w".data,
          fun _ => Except.ok "a".data⟩).webInvoked = true := by
  constructor
  · rfl
  · rfl

/-- C1 (amended): for every query turn with `force_web_search = false`, if
the primary index query returns results whose joined context string is
non-empty (in particular at least one result), the selector uses exactly
those documents and that context and does not invoke the web-search
collaborator, regardless of the web-search-enabled flag and API key. -/
theorem claim_C1_amended (cfg : ChatConfig) (env : TurnEnv) (docs : List Doc)
    (hforce : cfg.force_web_search = false)
    (hprim : env.primaryQuery 5 cfg.similarity_threshold = Except.ok docs)
    (hne : joinDocs docs ≠ []) :
    (runSelector cfg env).context = joinDocs docs ∧
    (runSelector cfg env).docs = docs ∧
    (runSelector cfg env).webInvoked = false := by
  have hde : docs.isEmpty = false := by
    cases docs with
    | nil => exact absurd rfl hne
    | cons d ds => rfl
  have hie : (joinDocs docs).isEmpty = false := by
    cases h : (joinDocs docs).isEmpty with
    | false => rfl
    | true => exact absurd (List.isEmpty_iff.mp h) hne
  have hstep2 : runStep2 cfg env =
      (joinDocs docs, docs, [.foundDocs docs.length]) := by
    unfold runStep2
    rw [hforce, hprim]
    simp [hde]
  unfold runSelector
  rw [hstep2, hforce]
  simp [hie]

/-- C1 amended witness: one primary result with text `"hello"`, web search
enabled and key present — document context wins and web search stays off. -/
theorem claim_C1_amended_witness :
    (⟨fun _ _ => Except.ok [⟨"hello".data⟩], none, Except.ok "w".data,
        fun _ => Except.ok "a".data⟩ : TurnEnv).primaryQuery 5
        (⟨false, true, true, 7/10⟩ : ChatConfig).similarity_threshold =
      Except.ok [⟨"hello".data⟩] ∧
    joinDocs [⟨"hello".data⟩] ≠ [] ∧
    ((runSelector ⟨false, true, true, 7/10⟩
        ⟨fun _ _ => Except.ok [⟨"hello".data⟩], none, Except.ok "w".data,
          fun _ => Except.ok "a".data⟩).context = joinDocs [⟨"hello".data⟩] ∧
      (runSelector ⟨false, true, true, 7/10⟩
        ⟨fun _ _ => Except.ok [⟨"hello".data⟩], none, Except.ok "w".data,
          fun _ => Except.ok "a".data⟩).docs = [⟨"hello".data⟩] ∧
      (runSelector ⟨false, true, true, 7/10⟩
        ⟨fun _ _ => Except.ok [⟨"hello".data⟩], none, Except.ok "w".data,
          fun _ => Except.ok "a".data⟩).webInvoked = false) :=
  ⟨rfl, by decide, claim_C1_amended _ _ _ rfl rfl (by decide)⟩

/-- C7: when the primary index query raises and the traditional vector store
is available, the handler retries the same `k = 5`, same-threshold query
against it, shows the error and the falling-back notices non-fatally, uses a
non-empty secondary result as the document context, and the turn is not
aborted: a successful generation still appends the assistant turn. -/
theorem claim_C7_secondary_fallback (cfg : ChatConfig) (env : TurnEnv)
    (e : List Char) (q : Nat → ℚ → List Doc)
    (hforce : cfg.force_web_search = false)
    (hprim : env.primaryQuery 5 cfg.similarity_threshold = Except.error e)
    (hvs : env.vector_store = some q) :
    (runStep2 cfg env).2.1 = q 5 cfg.similarity_threshold ∧
    Notice.retrievalError e ∈ (runStep2 cfg env).2.2 ∧
    Notice.fallingBackVectorStore ∈ (runStep2 cfg env).2.2 ∧
    (q 5 cfg.similarity_threshold ≠ [] →
      (runStep2 cfg env).1 = joinDocs (q 5 cfg.similarity_threshold)) ∧
    (∀ (history0 : List ConversationTurn) (prompt full : List Char),
      env.ragRun (buildFullPrompt (runSelector cfg env).context prompt) =
        Except.ok full →
      (runTurn cfg env history0 prompt).history =
        history0 ++ [⟨.user, prompt⟩, ⟨.assistant, (splitThink full).2⟩]) := by
  have hstep : runStep2 cfg env =
      (if (q 5 cfg.similarity_threshold).isEmpty then
        ([], q 5 cfg.similarity_threshold,
          [.retrievalError e, .fallingBackVectorStore] ++
            (if cfg.use_web_search then [.fallbackWebNotice] else []))
      else
        (joinDocs (q 5 cfg.similarity_threshold), q 5 cfg.similarity_threshold,
          [.retrievalError e, .fallingBackVectorStore,
            .foundDocs (q 5 cfg.similarity_threshold).length])) := by
    unfold runStep2
    rw [hforce, hprim, hvs]
    simp
  refine ⟨?_, ?_, ?_, ?_, ?_⟩
  · rw [hstep]
    by_cases hq : (q 5 cfg.similarity_threshold).isEmpty <;> simp [hq]
  · rw [hstep]
    by_cases hq : (q 5 cfg.similarity_threshold).isEmpty <;> simp [hq]
  · rw [hstep]
    by_cases hq : (q 5 cfg.similarity_threshold).isEmpty <;> simp [hq]
  · intro hne
    have hq : (q 5 cfg.similarity_threshold).isEmpty = false := by
      cases h : (q 5 cfg.similarity_threshold).isEmpty with
      | false => rfl
      | true => exact absurd (List.isEmpty_iff.mp h) hne
    rw [hstep]
    simp [hq]
  · intro history0 prompt full hgen
    simp only [runTurn, hgen]
    simp

/-- C7 witness: primary raises, secondary returns two results above
threshold, generation succeeds — the fallback context is used and the turn
completes. -/
theorem claim_C7_witness :
    (⟨fun _ _ => Except.error "down".data,
        some (fun _ _ => [⟨"alpha".data⟩, ⟨"beta".data⟩]), Except.ok [],
        fun _ => Except.ok "fine".data⟩ : TurnEnv).primaryQuery 5
        (⟨false, false, false, 7/10⟩ : ChatConfig).similarity_threshold =
      Except.error "down".data ∧
    (⟨fun _ _ => Except.error "down".data,
        some (fun _ _ => [⟨"alpha".data⟩, ⟨"beta".data⟩]), Except.ok [],
        fun _ => Except.ok "fine".data⟩ : TurnEnv).vector_store =
      some (fun _ _ => [⟨"alpha".data⟩, ⟨"beta".data⟩]) ∧
    ((runStep2 ⟨false, false, false, 7/10⟩
        ⟨fun _ _ => Except.error "down".data,
          some (fun _ _ => [⟨"alpha".data⟩, ⟨"beta".data⟩]), Except.ok [],
          fun _ => Except.ok "fine".data⟩).2.1 =
        ([⟨"alpha".data⟩, ⟨"beta".data⟩] : List Doc) ∧
      Notice.retrievalError "down".data ∈
        (runStep2 ⟨false, false, false, 7/10⟩
          ⟨fun _ _ => Except.error "down".data,
            some (fun _ _ => [⟨"alpha".data⟩, ⟨"beta".data⟩]), Except.ok [],
            fun _ => Except.ok "fine".data⟩).2.2 ∧
      Notice.fallingBackVectorStore ∈
        (runStep2 ⟨false, false, false, 7/10⟩
          ⟨fun _ _ => Except.error "down".data,
            some (fun _ _ => [⟨"alpha".data⟩, ⟨"beta".data⟩]), Except.ok [],
            fun _ => Except.ok "fine".data⟩).2.2 ∧
      (([⟨"alpha".data⟩, ⟨"beta".data⟩] : List Doc) ≠ [] →
        (runStep2 ⟨false, false, false, 7/10⟩
          ⟨fun _ _ => Except.error "down".data,
            some (fun _ _ => [⟨"alpha".data⟩, ⟨"beta".data⟩]), Except.ok [],
            fun _ => Except.ok "fine".data⟩).1 =
          joinDocs ([⟨"alpha".data⟩, ⟨"beta".data⟩] : List Doc)) ∧
      (∀ (history0 : List ConversationTurn) (prompt full : List Char),
        (⟨fun _ _ => Except.error "down".data,
            some (fun _ _ => [⟨"alpha".data⟩, ⟨"beta".data⟩]), Except.ok [],
            fun _ => Except.ok "fine".data⟩ : TurnEnv).ragRun
            (buildFullPrompt
              (runSelector ⟨false, false, false, 7/10⟩
                ⟨fun _ _ => Except.error "down".data,
                  some (fun _ _ => [⟨"alpha".data⟩, ⟨"beta".data⟩]),
                  Except.ok [], fun _ => Except.ok "fine".data⟩).context
              prompt) = Except.ok full →
        (runTurn ⟨false, false, false, 7/10⟩
            ⟨fun _ _ => Except.error "down".data,
              some (fun _ _ => [⟨"alpha".data⟩, ⟨"beta".data⟩]), Except.ok [],
              fun _ => Except.ok "fine".data⟩ history0 prompt).history =
          history0 ++ [⟨.user, prompt⟩, ⟨.assistant, (splitThink full).2⟩])) :=
  ⟨rfl, rfl,
    claim_C7_secondary_fallback ⟨false, false, false, 7/10⟩
      ⟨fun _ _ => Except.error "down".data,
        some (fun _ _ => [⟨"alpha".data⟩, ⟨"beta".data⟩]), Except.ok [],
        fun _ => Except.ok "fine".data⟩
      "down".data (fun _ _ => [⟨"alpha".data⟩, ⟨"beta".data⟩]) rfl rfl rfl⟩

/-- C8: if the model call (or consuming its stream) raises, the turn is
aborted with a user-visible generation error, and the failed generation
appends nothing: history is exactly as it was after the user message, and
every assistant turn in it was already there before the turn. -/
theorem claim_C8_generation_error (cfg : ChatConfig) (env : TurnEnv)
    (history0 : List ConversationTurn) (prompt e : List Char)
    (hgen : env.ragRun
        (buildFullPrompt (runSelector cfg env).context prompt) =
      Except.error e) :
    (runTurn cfg env history0 prompt).history =
      history0 ++ [⟨.user, prompt⟩] ∧
    Notice.generationError e ∈ (runTurn cfg env history0 prompt).genNotices ∧
    ∀ t ∈ (runTurn cfg env history0 prompt).history,
      t.role = Role.assistant → t ∈ history0 := by
  have hrun : runTurn cfg env history0 prompt =
      ⟨history0 ++ [⟨.user, prompt⟩], runSelector cfg env, none,
        (if (runSelector cfg env).context.isEmpty then [Notice.noInfoFound]
          else []) ++ [Notice.generationError e]⟩ := by
    simp only [runTurn, hgen]
  rw [hrun]
  refine ⟨rfl, by simp, ?_⟩
  intro t ht hrole
  rcases List.mem_append.mp ht with h0 | h1
  · exact h0
  · rw [List.mem_singleton.mp h1] at hrole
    cases hrole

/-- C8 witness: a generation failure on a concrete turn leaves history at
exactly the user message. -/
theorem claim_C8_witness :
    (⟨fun _ _ => Except.ok [], none, Except.ok [],
        fun _ => Except.error "boom".data⟩ : TurnEnv).ragRun
        (buildFullPrompt
          (runSelector ⟨true, false, false, 1⟩
            ⟨fun _ _ => Except.ok [], none, Except.ok [],
              fun _ => Except.error "boom".data⟩).context "hi".data) =
      Except.error "boom".data ∧
    ((runTurn ⟨true, false, false, 1⟩
        ⟨fun _ _ => Except.ok [], none, Except.ok [],
          fun _ => Except.error "boom".data⟩ [] "hi".data).history =
        [] ++ [⟨.user, "hi".data⟩] ∧
      Notice.generationError "boom".data ∈
        (runTurn ⟨true, false, false, 1⟩
          ⟨fun _ _ => Except.ok [], none, Except.ok [],
            fun _ => Except.error "boom".data⟩ [] "hi".data).genNotices ∧
      ∀ t ∈ (runTurn ⟨true, false, false, 1⟩
          ⟨fun _ _ => Except.ok [], none, Except.ok [],
            fun _ => Except.error "boom".data⟩ [] "hi".data).history,
        t.role = Role.assistant → t ∈ ([] : List ConversationTurn)) :=
  ⟨rfl, claim_C8_generation_error _ _ _ _ _ rfl⟩

end RAGAgent
